import Mathlib

/-!
Verification of the hazard-observation-call server (Express + SQLite backend).

The embedding models the three hazard routes of the backend
(`POST /api/hazards`, `GET /api/hazards`, `PATCH /api/hazards/:id`), the
`isAdmin` authorization middleware, the WebSocket `broadcast` fan-out, and
the two SQLite tables (`users`, `hazards`) with their column defaults
(`status TEXT DEFAULT 'open'`, nullable `remarks`, autoincrement ids).
-/

namespace HOC

/-- A row of the `users` table: id (INTEGER PRIMARY KEY AUTOINCREMENT),
username (TEXT UNIQUE), role (TEXT DEFAULT 'user'; the seeded administrator
account has role 'admin'). The password hash is irrelevant to the claims. -/
structure UserRec where
  id : Nat
  username : String
  role : String
deriving DecidableEq, Repr

/-- A row of the `hazards` table. `status` has SQL default 'open';
`remarks` and `imageUrl` are nullable (modelled `Option`, `none` = NULL);
`createdAt` is the DATETIME DEFAULT CURRENT_TIMESTAMP column, modelled as a
numeric timestamp. -/
structure Hazard where
  id : Nat
  userId : Nat
  type : String
  location : String
  riskLevel : String
  description : String
  imageUrl : Option String
  status : String
  remarks : Option String
  createdAt : Nat
deriving DecidableEq, Repr

/-- The persistent database state: both tables plus the AUTOINCREMENT
counter for the next hazard id. -/
structure Store where
  users : List UserRec
  hazards : List Hazard
  nextHazardId : Nat
deriving DecidableEq, Repr

/-- A WebSocket client connection in the `clients` set; `isOpen` models
`readyState === WebSocket.OPEN`. -/
structure Conn where
  id : Nat
  isOpen : Bool
deriving DecidableEq, Repr

/-- The `type` tag of a server-to-client WebSocket message
(`NEW_HAZARD` / `STATUS_UPDATE` in the source; the spec calls these
`report-created` / `status-changed`). -/
inductive MsgType where
  | NEW_HAZARD
  | STATUS_UPDATE
deriving DecidableEq, Repr

/-- A server-to-client WebSocket message `{type, payload}`. The payload is
`Option Hazard` because the PATCH handler broadcasts whatever its SELECT
returned, which is `undefined` (here `none`) when no row matched. -/
structure WSMessage where
  msgType : MsgType
  payload : Option Hazard
deriving DecidableEq, Repr

/-- `broadcast` from the source: serialize the message and send it to every
client in the registered set whose readyState is OPEN. The result is the
list of performed deliveries, as (connection id, message) pairs. -/
def broadcast (clients : List Conn) (msg : WSMessage) : List (Nat × WSMessage) :=
  (clients.filter (fun c => c.isOpen)).map (fun c => (c.id, msg))

/-- The `isAdmin` middleware test: `req.user.role !== 'admin'` yields 403,
so the request proceeds exactly when the role equals 'admin'. -/
def isAdmin (u : UserRec) : Bool := u.role == "admin"

/-- JSON body of `POST /api/hazards`. The handler destructures only
`type, location, riskLevel, description, imageUrl`; a `userId` supplied by
the caller is present in the body but never read. -/
structure HazardBody where
  type : String
  location : String
  riskLevel : String
  description : String
  imageUrl : Option String
  userId : Option Nat
deriving DecidableEq, Repr

/-- Outcome of a `POST /api/hazards` request: HTTP status, the database
state after the request, the JSON response row, and the WebSocket
deliveries performed. -/
structure PostResult where
  httpCode : Nat
  store : Store
  response : Hazard
  deliveries : List (Nat × WSMessage)
deriving DecidableEq, Repr

/-- The `POST /api/hazards` handler (after `authenticate`): INSERT a row
whose userId is `req.user.id`, with the SQL defaults status = 'open',
remarks = NULL, createdAt = now; SELECT it back; broadcast
`{type: NEW_HAZARD, payload: row}`; respond 200 with the row. There is no
input validation and no failure path. -/
def postHazard (actor : UserRec) (body : HazardBody) (now : Nat)
    (s : Store) (clients : List Conn) : PostResult :=
  let h : Hazard :=
    { id := s.nextHazardId, userId := actor.id, type := body.type,
      location := body.location, riskLevel := body.riskLevel,
      description := body.description, imageUrl := body.imageUrl,
      status := "open", remarks := none, createdAt := now }
  { httpCode := 200,
    store := { s with
                 hazards := s.hazards ++ [h],
                 nextHazardId := s.nextHazardId + 1 },
    response := h,
    deliveries := broadcast clients { msgType := .NEW_HAZARD, payload := some h } }

/-- The effect of `UPDATE hazards SET status = ?, remarks = ? WHERE id = ?`
on one row. -/
def updStatus (hid : Nat) (st rem : String) (x : Hazard) : Hazard :=
  if x.id == hid then { x with status := st, remarks := some rem } else x

/-- Outcome of a `PATCH /api/hazards/:id` request. `response` is the JSON
body (`none` when the handler responds with an error, or when the SELECT
after the UPDATE found no row). -/
structure PatchResult where
  httpCode : Nat
  store : Store
  response : Option Hazard
  deliveries : List (Nat × WSMessage)
deriving DecidableEq, Repr

/-- The `PATCH /api/hazards/:id` handler (after `authenticate`): the
`isAdmin` middleware rejects non-admins with 403 before any database
access; otherwise the handler runs the UPDATE (which touches the rows whose
id matches, possibly none), SELECTs the row by id, broadcasts
`{type: STATUS_UPDATE, payload: row}` and responds 200 with the row.
There is no existence check: a missing id still yields 200. -/
def patchHazard (actor : UserRec) (hid : Nat) (st rem : String)
    (s : Store) (clients : List Conn) : PatchResult :=
  if isAdmin actor then
    let hs := s.hazards.map (updStatus hid st rem)
    let updated := hs.find? (fun x => x.id == hid)
    { httpCode := 200,
      store := { s with hazards := hs },
      response := updated,
      deliveries := broadcast clients { msgType := .STATUS_UPDATE, payload := updated } }
  else
    { httpCode := 403, store := s, response := none, deliveries := [] }

/-- A row returned by `GET /api/hazards`: the hazard columns, plus
`u.username AS reporter` for the admin query (`none` for the employee
query, which selects only `hazards.*`). -/
structure AnnotHazard where
  hazard : Hazard
  reporter : Option String
deriving DecidableEq, Repr

/-- `ORDER BY createdAt DESC`: row `a` may precede row `b` when `a` is at
least as new. -/
def newerFirst (a b : AnnotHazard) : Prop :=
  b.hazard.createdAt ≤ a.hazard.createdAt

instance : DecidableRel newerFirst :=
  fun a b => Nat.decLe b.hazard.createdAt a.hazard.createdAt

instance : IsTotal AnnotHazard newerFirst :=
  ⟨fun a b => Nat.le_total b.hazard.createdAt a.hazard.createdAt⟩

instance : IsTrans AnnotHazard newerFirst :=
  ⟨fun _ _ _ h1 h2 => Nat.le_trans h2 h1⟩

/-- The admin query of `GET /api/hazards`:
`SELECT h.*, u.username AS reporter FROM hazards h JOIN users u ON
h.userId = u.id ORDER BY h.createdAt DESC`. The inner join is a flatMap of
a filter; the ORDER BY is modelled by sorting the join result. -/
def adminRows (s : Store) : List AnnotHazard :=
  s.hazards.flatMap (fun h =>
    (s.users.filter (fun u => u.id == h.userId)).map
      (fun u => { hazard := h, reporter := some u.username }))

/-- The `GET /api/hazards` handler (after `authenticate`): admins get the
join of all hazards with their reporters; everyone else gets
`SELECT * FROM hazards WHERE userId = ? ORDER BY createdAt DESC` scoped to
their own id. -/
def getHazards (viewer : UserRec) (s : Store) : List AnnotHazard :=
  if viewer.role == "admin" then
    (adminRows s).insertionSort newerFirst
  else
    (((s.hazards.filter (fun h => h.userId == viewer.id)).map
        (fun h => { hazard := h, reporter := none })).insertionSort newerFirst)

/-- The status lifecycle enum of the spec and of the frontend type
`HazardStatus`: 'open' | 'in progress' | 'closed'. -/
def validStatus (st : String) : Prop :=
  st = "open" ∨ st = "in progress" ∨ st = "closed"

instance : DecidablePred validStatus := fun st => by
  unfold validStatus
  infer_instance

/-- A mutating API request, for reasoning about reachable database states:
a report creation or a status update. -/
inductive Op where
  | create (actor : UserRec) (body : HazardBody) (now : Nat)
  | update (actor : UserRec) (hid : Nat) (st rem : String)
deriving DecidableEq, Repr

/-- The database state after serving one mutating request. -/
def applyOp (s : Store) : Op → Store
  | .create actor body now => (postHazard actor body now s []).store
  | .update actor hid st rem => (patchHazard actor hid st rem s []).store

/-- The database state after serving a sequence of mutating requests. -/
def runOps (s : Store) (ops : List Op) : Store :=
  ops.foldl applyOp s

/-- An update request whose requested status lies in the lifecycle enum
(creations are unconstrained). -/
def opStatusOk : Op → Prop
  | .create _ _ _ => True
  | .update _ _ st _ => validStatus st

instance : DecidablePred opStatusOk := fun op => by
  cases op with
  | create actor body now => exact isTrue trivial
  | update actor hid st rem => exact inferInstanceAs (Decidable (validStatus st))

/-! Concrete fixtures used by witnesses and counterexamples. -/

/-- The seeded administrator account (role 'admin'). -/
def adminUser : UserRec := { id := 1, username := "admin", role := "admin" }

/-- A registered employee account (role TEXT DEFAULT 'user'). -/
def alice : UserRec := { id := 2, username := "alice", role := "user" }

/-- A second registered employee account. -/
def bob : UserRec := { id := 3, username := "bob", role := "user" }

/-- A database state with the three accounts and no hazards yet. -/
def store0 : Store := { users := [adminUser, alice, bob], hazards := [], nextHazardId := 1 }

/-- A well-formed report submission body (the scenario of the spec). -/
def demoBody : HazardBody :=
  { type := "Spill", location := "Dock 3", riskLevel := "medium",
    description := "Wet floor", imageUrl := none, userId := none }

/-- A hazard row owned by alice. -/
def hazardA : Hazard :=
  { id := 1, userId := 2, type := "Spill", location := "Dock 3",
    riskLevel := "medium", description := "Wet floor", imageUrl := none,
    status := "open", remarks := none, createdAt := 5 }

/-- A hazard row owned by bob, newer than `hazardA`. -/
def hazardB : Hazard :=
  { id := 2, userId := 3, type := "Leak", location := "Bay 1",
    riskLevel := "high", description := "Gas smell", imageUrl := none,
    status := "open", remarks := none, createdAt := 9 }

/-- A database state holding both demo hazards. -/
def store2 : Store :=
  { users := [adminUser, alice, bob], hazards := [hazardA, hazardB], nextHazardId := 3 }

/-- The trace reaching a store whose hazard status lies outside the enum:
alice files the demo report (id 1), then the administrator patches it with
the status string "totally bogus". -/
def badOps : List Op :=
  [Op.create alice demoBody 5, Op.update adminUser 1 "totally bogus" "oops"]

/-- A trace whose update requests stay inside the enum: creation, then the
lifecycle walk of the spec scenario. -/
def goodOps : List Op :=
  [Op.create alice demoBody 5,
   Op.update adminUser 1 "in progress" "Cleanup crew dispatched",
   Op.update adminUser 1 "closed" "Resolved",
   Op.update adminUser 1 "open" "Reopened"]

/-- Two demo connections: one open, one already closed. -/
def demoClients : List Conn :=
  [{ id := 1, isOpen := true }, { id := 2, isOpen := false }]

/-! Helper lemmas. -/

/-- In a list of users with pairwise-distinct ids, filtering by the id of a
member returns exactly that member. -/
theorem filter_eq_single (users : List UserRec) (u : UserRec) (n : Nat)
    (hnd : (users.map (fun v => v.id)).Nodup) (hu : u ∈ users) (hid : u.id = n) :
    users.filter (fun v => v.id == n) = [u] := by
  induction users with
  | nil => cases hu
  | cons a t ih =>
    rw [List.map_cons, List.nodup_cons] at hnd
    rcases List.mem_cons.mp hu with rfl | hmt
    · rw [List.filter_cons_of_pos (by simpa using hid)]
      have ht : t.filter (fun v => v.id == n) = [] := by
        refine List.filter_eq_nil_iff.mpr (fun v hv => ?_)
        simp only [beq_iff_eq]
        intro he
        exact hnd.1 (List.mem_map.mpr ⟨v, hv, by rw [he, ← hid]⟩)
      rw [ht]
    · have hane : ¬ (a.id == n) = true := by
        simp only [beq_iff_eq]
        intro he
        exact hnd.1 (List.mem_map.mpr ⟨u, hmt, by rw [hid, ← he]⟩)
      rw [@List.filter_cons_of_neg UserRec (fun v => v.id == n) a t hane]
      exact ih hnd.2 hmt

/-- After the UPDATE, the SELECT by id finds the updated row, provided the
hazard ids are pairwise distinct (the PRIMARY KEY invariant). -/
theorem find?_map_updStatus (l : List Hazard) (hid : Nat) (st rem : String) (h : Hazard)
    (hnd : (l.map (fun x => x.id)).Nodup) (hmem : h ∈ l) (hhid : h.id = hid) :
    (l.map (updStatus hid st rem)).find? (fun x => x.id == hid)
      = some { h with status := st, remarks := some rem } := by
  induction l with
  | nil => cases hmem
  | cons a t ih =>
    rw [List.map_cons, List.nodup_cons] at hnd
    by_cases ha : a.id = hid
    · have hae : a = h := by
        rcases List.mem_cons.mp hmem with rfl | hmt
        · rfl
        · exact absurd (List.mem_map.mpr ⟨h, hmt, by rw [hhid, ← ha]⟩) hnd.1
      subst hae
      rw [List.map_cons]
      have hu : updStatus hid st rem a = { a with status := st, remarks := some rem } := by
        simp [updStatus, ha]
      rw [hu, List.find?_cons_of_pos _ (by simpa using ha)]
    · have hmt : h ∈ t := by
        rcases List.mem_cons.mp hmem with rfl | hmt
        · exact absurd hhid ha
        · exact hmt
      rw [List.map_cons]
      have hu : updStatus hid st rem a = a := by simp [updStatus, ha]
      rw [hu, List.find?_cons_of_neg _ (by simpa using ha)]
      exact ih hnd.2 hmt

/-- The UPDATE leaves the table unchanged when no row has the target id. -/
theorem map_updStatus_of_not_mem (l : List Hazard) (hid : Nat) (st rem : String)
    (hno : ∀ h ∈ l, h.id ≠ hid) : l.map (updStatus hid st rem) = l := by
  induction l with
  | nil => rfl
  | cons a t ih =>
    have ha : updStatus hid st rem a = a := by
      simp [updStatus, hno a (List.mem_cons_self a t)]
    rw [List.map_cons, ha, ih (fun h hm => hno h (List.mem_cons_of_mem a hm))]

/-! Claim theorems. -/

/-- Claim C1: an `updateStatus` request whose actor is not an administrator
is rejected by the `isAdmin` middleware with HTTP 403 and the stored
hazards (status and remarks included) are left unchanged. -/
theorem patchHazard_nonadmin_forbidden (actor : UserRec) (hid : Nat) (st rem : String)
    (s : Store) (clients : List Conn) (hrole : actor.role ≠ "admin") :
    (patchHazard actor hid st rem s clients).httpCode = 403
      ∧ (patchHazard actor hid st rem s clients).store = s := by
  have hadm : isAdmin actor = false := by
    simp only [isAdmin, beq_eq_false_iff_ne, ne_eq]
    exact hrole
  rw [patchHazard, hadm]
  exact ⟨rfl, rfl⟩

/-- Witness for C1: a concrete employee request is refused with 403 and the
store is untouched. -/
theorem patchHazard_nonadmin_forbidden_witness :
    (patchHazard alice 1 "closed" "done" store2 []).httpCode = 403
      ∧ (patchHazard alice 1 "closed" "done" store2 []).store = store2 :=
  patchHazard_nonadmin_forbidden alice 1 "closed" "done" store2 [] (by decide)

/-- Claim C10: the owner id of the persisted record is the authenticated
session's account id; a `userId` field supplied in the request body is
ignored (the handler never reads it, so the whole outcome is unchanged if
it is erased). -/
theorem postHazard_owner_from_session (actor : UserRec) (body : HazardBody) (now : Nat)
    (s : Store) (clients : List Conn) :
    (postHazard actor body now s clients).response.userId = actor.id
      ∧ (postHazard actor body now s clients).store.hazards
          = s.hazards ++ [(postHazard actor body now s clients).response]
      ∧ postHazard actor { body with userId := none } now s clients
          = postHazard actor body now s clients :=
  ⟨rfl, rfl, rfl⟩

/-- Claim C7: a valid submission (non-empty type, location, description and
riskLevel in the enum) yields a record whose status is 'open' and whose
remarks are empty (SQL NULL). -/
theorem postHazard_initial_status_open (actor : UserRec) (body : HazardBody) (now : Nat)
    (s : Store) (clients : List Conn)
    (ht : body.type ≠ "") (hl : body.location ≠ "") (hd : body.description ≠ "")
    (hr : body.riskLevel = "low" ∨ body.riskLevel = "medium" ∨ body.riskLevel = "high") :
    (postHazard actor body now s clients).response.status = "open"
      ∧ (postHazard actor body now s clients).response.remarks = none :=
  ⟨rfl, rfl⟩

/-- Witness for C7: the demo submission comes back with status 'open' and
no remarks. -/
theorem postHazard_initial_status_open_witness :
    (postHazard alice demoBody 5 store0 []).response.status = "open"
      ∧ (postHazard alice demoBody 5 store0 []).response.remarks = none :=
  postHazard_initial_status_open alice demoBody 5 store0 []
    (by decide) (by decide) (by decide) (by decide)

/-- Counterexample to claim C6: a submission with empty type, location and
description and a riskLevel outside the enum is not rejected with 400 —
the handler answers 200 and the record is persisted anyway. -/
theorem postHazard_invalid_persists :
    (postHazard alice
        { type := "", location := "", riskLevel := "extreme",
          description := "", imageUrl := none, userId := none } 0 store0 []).httpCode = 200
      ∧ (postHazard alice
          { type := "", location := "", riskLevel := "extreme",
            description := "", imageUrl := none, userId := none } 0 store0 []).store.hazards.length
          = store0.hazards.length + 1 := by
  exact ⟨rfl, rfl⟩

/-- Claim C6 amended: `createReport` performs no input validation at all —
for every body (malformed ones included) it succeeds with HTTP 200 and
persists a record carrying the body's fields verbatim. -/
theorem postHazard_no_validation (actor : UserRec) (body : HazardBody) (now : Nat)
    (s : Store) (clients : List Conn) :
    (postHazard actor body now s clients).httpCode = 200
      ∧ (postHazard actor body now s clients).store.hazards
          = s.hazards ++ [(postHazard actor body now s clients).response]
      ∧ (postHazard actor body now s clients).response.type = body.type
      ∧ (postHazard actor body now s clients).response.location = body.location
      ∧ (postHazard actor body now s clients).response.description = body.description
      ∧ (postHazard actor body now s clients).response.riskLevel = body.riskLevel :=
  ⟨rfl, rfl, rfl, rfl, rfl, rfl⟩

/-- Claim C2: an administrator updating an existing report (hazard ids are
unique, the PRIMARY KEY invariant) succeeds with 200 and the returned
record carries exactly the requested status and remarks, whatever the
prior status was — including a no-op update to the same status. -/
theorem patchHazard_admin_overwrites (actor : UserRec) (hid : Nat) (st rem : String)
    (s : Store) (clients : List Conn) (h : Hazard)
    (hrole : actor.role = "admin") (hst : validStatus st)
    (hnd : (s.hazards.map (fun x => x.id)).Nodup)
    (hmem : h ∈ s.hazards) (hhid : h.id = hid) :
    (patchHazard actor hid st rem s clients).httpCode = 200
      ∧ (patchHazard actor hid st rem s clients).response
          = some { h with status := st, remarks := some rem } := by
  have hadm : isAdmin actor = true := by
    simp only [isAdmin, beq_iff_eq]
    exact hrole
  unfold patchHazard
  rw [if_pos hadm]
  exact ⟨rfl, find?_map_updStatus s.hazards hid st rem h hnd hmem hhid⟩

/-- Witness for C2: the administrator closes an open demo report and gets
back the requested status and remarks. -/
theorem patchHazard_admin_overwrites_witness :
    (patchHazard adminUser 1 "closed" "done" store2 []).httpCode = 200
      ∧ (patchHazard adminUser 1 "closed" "done" store2 []).response
          = some { hazardA with status := "closed", remarks := some "done" } :=
  patchHazard_admin_overwrites adminUser 1 "closed" "done" store2 [] hazardA
    (by decide) (by decide) (by decide) (by decide) (by decide)

/-- Counterexample to claim C3: an administrator patching an id that is
absent from the store is not answered with 404 — the handler responds 200
(with no row in the body) and the store is unchanged. -/
theorem patchHazard_missing_id_not_404 :
    (∀ h ∈ store2.hazards, h.id ≠ 7)
      ∧ (patchHazard adminUser 7 "closed" "done" store2 []).httpCode = 200
      ∧ (patchHazard adminUser 7 "closed" "done" store2 []).response = none
      ∧ (patchHazard adminUser 7 "closed" "done" store2 []).store = store2 := by
  refine ⟨by decide, rfl, rfl, by decide⟩

/-- Claim C3 amended: an administrator's update on a nonexistent reportId
does not fail with 404; it responds 200 with an empty body, and no record
is created or modified (the store is exactly the prior one). -/
theorem patchHazard_missing_id_noop (actor : UserRec) (hid : Nat) (st rem : String)
    (s : Store) (clients : List Conn)
    (hrole : actor.role = "admin")
    (hmiss : ∀ h ∈ s.hazards, h.id ≠ hid) :
    (patchHazard actor hid st rem s clients).httpCode = 200
      ∧ (patchHazard actor hid st rem s clients).response = none
      ∧ (patchHazard actor hid st rem s clients).store = s := by
  have hadm : isAdmin actor = true := by
    simp only [isAdmin, beq_iff_eq]
    exact hrole
  have hmap := map_updStatus_of_not_mem s.hazards hid st rem hmiss
  have hfind : (s.hazards.map (updStatus hid st rem)).find? (fun x => x.id == hid) = none := by
    rw [hmap]
    refine List.find?_eq_none.mpr (fun x hx => ?_)
    simpa using hmiss x hx
  unfold patchHazard
  rw [if_pos hadm]
  refine ⟨rfl, hfind, ?_⟩
  show { s with hazards := s.hazards.map (updStatus hid st rem) } = s
  rw [hmap]

/-- Witness for C3 (amended): the concrete missing-id patch of the
counterexample, obtained through the amended theorem. -/
theorem patchHazard_missing_id_noop_witness :
    (patchHazard adminUser 9 "open" "re" store2 []).httpCode = 200
      ∧ (patchHazard adminUser 9 "open" "re" store2 []).response = none
      ∧ (patchHazard adminUser 9 "open" "re" store2 []).store = store2 :=
  patchHazard_missing_id_noop adminUser 9 "open" "re" store2 [] (by decide) (by decide)

/-- Claim C4: an employee's listing is scoped to their own account — every
row returned by the employee branch of `GET /api/hazards` is owned by the
viewer. -/
theorem getHazards_employee_own_only (viewer : UserRec) (s : Store)
    (hrole : viewer.role = "user") :
    ∀ x ∈ getHazards viewer s, x.hazard.userId = viewer.id := by
  intro x hx
  have hne : (viewer.role == "admin") = false := by
    rw [hrole]
    rfl
  unfold getHazards at hx
  rw [hne] at hx
  simp only [Bool.false_eq_true, if_false, List.mem_insertionSort] at hx
  rcases List.mem_map.mp hx with ⟨h, hh, rfl⟩
  have hf := List.mem_filter.mp hh
  simpa using hf.2

/-- Witness for C4: on the two-hazard demo store, every row alice sees is
owned by alice. -/
theorem getHazards_employee_own_only_witness :
    ((getHazards alice store2).all (fun x => x.hazard.userId == alice.id)) = true := by
  have h := getHazards_employee_own_only alice store2 (by decide)
  exact List.all_eq_true.mpr (fun x hx => by simpa using h x hx)

/-- The inner join of `GET /api/hazards` (admin branch) has one row per
hazard when user ids are unique and every hazard's owner exists. -/
theorem adminRows_length (users : List UserRec) (hz : List Hazard)
    (hnd : (users.map (fun u => u.id)).Nodup)
    (hvalid : ∀ h ∈ hz, ∃ u ∈ users, u.id = h.userId) :
    (hz.flatMap (fun h =>
      (users.filter (fun u => u.id == h.userId)).map
        (fun u => ({ hazard := h, reporter := some u.username } : AnnotHazard)))).length
      = hz.length := by
  induction hz with
  | nil => rfl
  | cons a t ih =>
    rw [List.flatMap_cons, List.length_append, List.length_map]
    rcases hvalid a (List.mem_cons_self a t) with ⟨u, hu, hid⟩
    rw [filter_eq_single users u a.userId hnd hu hid,
      ih (fun h hm => hvalid h (List.mem_cons_of_mem a hm))]
    simp [Nat.add_comm]

/-- Claim C5: under the owner-validity invariant (unique user ids, every
hazard owned by an existing user), the administrator listing contains
every stored report annotated with its owner's username, has exactly one
row per stored report, and is ordered newest-first by creation time. -/
theorem getHazards_admin_complete_sorted (viewer : UserRec) (s : Store)
    (hrole : viewer.role = "admin")
    (hnd : (s.users.map (fun u => u.id)).Nodup)
    (hvalid : ∀ h ∈ s.hazards, ∃ u ∈ s.users, u.id = h.userId) :
    (∀ h ∈ s.hazards, ∀ u ∈ s.users, u.id = h.userId →
        ({ hazard := h, reporter := some u.username } : AnnotHazard) ∈ getHazards viewer s)
      ∧ (getHazards viewer s).length = s.hazards.length
      ∧ (getHazards viewer s).Sorted newerFirst := by
  have hadm : (viewer.role == "admin") = true := by
    rw [hrole]
    rfl
  have hgh : getHazards viewer s = (adminRows s).insertionSort newerFirst := by
    unfold getHazards
    rw [hadm]
    rfl
  refine ⟨?_, ?_, ?_⟩
  · intro h hh u hu hid
    rw [hgh, List.mem_insertionSort]
    unfold adminRows
    rw [List.mem_flatMap]
    exact ⟨h, hh, List.mem_map.mpr ⟨u, List.mem_filter.mpr ⟨hu, by simpa using hid⟩, rfl⟩⟩
  · rw [hgh, List.length_insertionSort]
    exact adminRows_length s.users s.hazards hnd hvalid
  · rw [hgh]
    exact List.sorted_insertionSort newerFirst (adminRows s)

/-- Witness for C5: on the two-hazard demo store the administrator listing
is complete, annotated and sorted. -/
theorem getHazards_admin_complete_sorted_witness :
    (∀ h ∈ store2.hazards, ∀ u ∈ store2.users, u.id = h.userId →
        ({ hazard := h, reporter := some u.username } : AnnotHazard) ∈ getHazards adminUser store2)
      ∧ (getHazards adminUser store2).length = store2.hazards.length
      ∧ (getHazards adminUser store2).Sorted newerFirst :=
  getHazards_admin_complete_sorted adminUser store2 (by decide) (by decide) (by decide)

/-- Counterexample to claim C8: the PATCH handler performs no validation of
the requested status, so a state whose stored status is outside
{open, in progress, closed} is reachable through the API. -/
theorem runOps_status_escapes_enum :
    ((runOps store0 badOps).hazards.map (fun h => h.status)) = ["totally bogus"]
      ∧ ¬ validStatus "totally bogus" := by
  exact ⟨rfl, by decide⟩

/-- One request preserves the status-enum invariant, provided an update
request's status lies in the enum. -/
theorem applyOp_preserves_validStatus (s : Store) (op : Op)
    (hs : ∀ h ∈ s.hazards, validStatus h.status) (hop : opStatusOk op) :
    ∀ h ∈ (applyOp s op).hazards, validStatus h.status := by
  cases op with
  | create actor body now =>
    intro h hm
    simp only [applyOp] at hm
    unfold postHazard at hm
    simp only [List.mem_append, List.mem_singleton] at hm
    rcases hm with hm | rfl
    · exact hs h hm
    · exact Or.inl rfl
  | update actor hid st rem =>
    intro h hm
    simp only [applyOp] at hm
    unfold patchHazard at hm
    by_cases hadm : isAdmin actor
    · rw [if_pos hadm] at hm
      rcases List.mem_map.mp hm with ⟨x, hx, rfl⟩
      unfold updStatus
      by_cases hxid : (x.id == hid) = true
      · rw [if_pos hxid]
        exact hop
      · rw [if_neg hxid]
        exact hs x hx
    · rw [if_neg hadm] at hm
      exact hs h hm

/-- Claim C8 amended: statuses start at 'open' and stay inside the enum on
every trace whose update requests all carry an enum status; the code
itself never enforces this (see the counterexample), so the invariant is
conditional on the requests. -/
theorem runOps_validStatus_invariant (s : Store) (ops : List Op)
    (hs : ∀ h ∈ s.hazards, validStatus h.status)
    (hops : ∀ op ∈ ops, opStatusOk op) :
    ∀ h ∈ (runOps s ops).hazards, validStatus h.status := by
  induction ops generalizing s with
  | nil => exact hs
  | cons op t ih =>
    exact ih (applyOp s op)
      (applyOp_preserves_validStatus s op hs (hops op (List.mem_cons_self op t)))
      (fun o ho => hops o (List.mem_cons_of_mem op ho))

/-- Witness for C8 (amended): the spec scenario's trace keeps every stored
status inside the lifecycle enum. -/
theorem runOps_validStatus_invariant_witness :
    ((runOps store0 goodOps).hazards.all (fun h => decide (validStatus h.status))) = true := by
  have h := runOps_validStatus_invariant store0 goodOps (by decide) (by decide)
  exact List.all_eq_true.mpr (fun x hx => by simpa using h x hx)

/-- Claim C9: a creation broadcasts exactly one NEW_HAZARD message and an
administrator's update of an existing report exactly one STATUS_UPDATE
message; each is delivered exactly to the currently-registered connections
whose transport is open, after persistence, with payload equal to the
record as stored. -/
theorem broadcast_per_mutation (actor uactor : UserRec) (body : HazardBody) (now : Nat)
    (s : Store) (clients : List Conn) (hid : Nat) (st rem : String) (h : Hazard)
    (hrole : uactor.role = "admin")
    (hnd : (s.hazards.map (fun x => x.id)).Nodup)
    (hmem : h ∈ s.hazards) (hhid : h.id = hid) :
    ((postHazard actor body now s clients).deliveries
        = (clients.filter (fun c => c.isOpen)).map
            (fun c => (c.id,
              ({ msgType := .NEW_HAZARD,
                 payload := some (postHazard actor body now s clients).response } : WSMessage)))
      ∧ (postHazard actor body now s clients).response
          ∈ (postHazard actor body now s clients).store.hazards)
      ∧ ((patchHazard uactor hid st rem s clients).deliveries
          = (clients.filter (fun c => c.isOpen)).map
              (fun c => (c.id,
                ({ msgType := .STATUS_UPDATE,
                   payload := (patchHazard uactor hid st rem s clients).response } : WSMessage)))
        ∧ (patchHazard uactor hid st rem s clients).response
            = some { h with status := st, remarks := some rem }
        ∧ ({ h with status := st, remarks := some rem } : Hazard)
            ∈ (patchHazard uactor hid st rem s clients).store.hazards) := by
  have hadm : isAdmin uactor = true := by
    simp only [isAdmin, beq_iff_eq]
    exact hrole
  have hfind := find?_map_updStatus s.hazards hid st rem h hnd hmem hhid
  constructor
  · constructor
    · rfl
    · show _ ∈ s.hazards ++ [(postHazard actor body now s clients).response]
      exact List.mem_append_right _ (List.mem_singleton.mpr rfl)
  · unfold patchHazard
    rw [if_pos hadm]
    refine ⟨rfl, hfind, ?_⟩
    show _ ∈ s.hazards.map (updStatus hid st rem)
    have hupd : updStatus hid st rem h = { h with status := st, remarks := some rem } := by
      unfold updStatus
      rw [if_pos (by simpa using hhid)]
    exact hupd ▸ List.mem_map_of_mem (updStatus hid st rem) hmem

/-- Witness for C9: on the demo store, with one open and one closed
connection, both mutations deliver their single message exactly to the
open connection, carrying the stored record. -/
theorem broadcast_per_mutation_witness :
    ((postHazard bob demoBody 11 store2 demoClients).deliveries
        = (demoClients.filter (fun c => c.isOpen)).map
            (fun c => (c.id,
              ({ msgType := .NEW_HAZARD,
                 payload := some (postHazard bob demoBody 11 store2 demoClients).response } : WSMessage)))
      ∧ (postHazard bob demoBody 11 store2 demoClients).response
          ∈ (postHazard bob demoBody 11 store2 demoClients).store.hazards)
      ∧ ((patchHazard adminUser 2 "in progress" "On it" store2 demoClients).deliveries
          = (demoClients.filter (fun c => c.isOpen)).map
              (fun c => (c.id,
                ({ msgType := .STATUS_UPDATE,
                   payload := (patchHazard adminUser 2 "in progress" "On it" store2
                     demoClients).response } : WSMessage)))
        ∧ (patchHazard adminUser 2 "in progress" "On it" store2 demoClients).response
            = some { hazardB with status := "in progress", remarks := some "On it" }
        ∧ ({ hazardB with status := "in progress", remarks := some "On it" } : Hazard)
            ∈ (patchHazard adminUser 2 "in progress" "On it" store2 demoClients).store.hazards) :=
  broadcast_per_mutation bob adminUser demoBody 11 store2
    demoClients 2 "in progress" "On it" hazardB
    (by decide) (by decide) (by decide) (by decide)

end HOC
